import Mathlib

/-!
Verification development for the CArsenal command-line parser core.

The repository ships the parser's public contracts
(`specs/001-cmdline-parser/contracts/parser.hpp`,
`contracts/parse_result.hpp`, the validator header) and a detailed design
document, but the engine's implementation itself is not part of the source
tree.  The definitions below therefore embed the parser faithfully from the
design document (spec.md sections 3 and 4) and the shipped header contracts;
each such definition's doc comment records this.  The demo program
`src/CArsenal.cpp` is embedded directly from its source.
-/

namespace CArsenal

/-- Modelled from the spec: the Value model (spec.md section 3) — a closed
variant over Boolean, Integer, Float, Text, TextList.  The parser engine's
implementation is absent from the repository; only its contracts are
shipped.  Float values keep their raw text since no claim depends on
floating-point arithmetic. -/
inductive Value where
  | boolean (b : Bool)
  | integer (i : Int)
  | floatV (raw : String)
  | text (s : String)
  | textList (l : List String)
deriving DecidableEq, Repr

/-- The declared type of an option's value. -/
inductive ValueType where
  | boolean
  | integer
  | floatT
  | text
  | textList
deriving DecidableEq, Repr

/-- Parse-time error kinds, from `contracts/parse_error.hpp`
(ParseErrorType). -/
inductive ParseErrorType where
  | unknown_option
  | type_mismatch
  | missing_required
  | validation_failed
  | duplicate_option
  | invalid_format
  | missing_value
  | extra_value
  | subcommand_error
  | internal_error
deriving DecidableEq, Repr

/-- A parse error with contextual information, from
`contracts/parse_error.hpp` (ParseError): kind, message, offending
argument, related option name. -/
structure ParseError where
  type : ParseErrorType
  message : String
  argument : Option String
  option_name : Option String
deriving DecidableEq, Repr

/-- Duplicate-occurrence policy, from `contracts/parser.hpp`
(DuplicatePolicy). -/
inductive DuplicatePolicy where
  | error
  | last_wins
  | accumulate
deriving DecidableEq, Repr

/-- Modelled from the spec: a validator capability
{validate(text) -> valid | invalid(message)} (spec.md section 3, and the
validator header contract).  `validate` returns `none` when the value is
valid and `some message` when invalid. -/
structure Validator where
  validate : String → Option String
  descr : String := ""

/-- Modelled from the spec: OptionSchema (spec.md section 3) — identity
(optional short char and/or long name), value type, arity (0 = flag),
required flag, default value, ordered validators, duplicate policy and
optional environment-variable fallback name. -/
structure OptionSchema where
  short : Option Char
  long : Option String
  type : ValueType
  arity : Nat
  required : Bool
  defaultVal : Option Value
  validators : List Validator
  dupPolicy : DuplicatePolicy
  envName : Option String

/-- The primary identifier of an option: its long name when present,
otherwise its short name as a one-character string. -/
def OptionSchema.key (sch : OptionSchema) : String :=
  match sch.long with
  | some l => l
  | none =>
    match sch.short with
    | some c => String.mk [c]
    | none => ""

/-- Modelled from the spec: ParserNode (spec.md section 3) — a schema
collection, ordered positional declarations, child subcommand nodes and
node-level policies (unknown-option tolerance, POSIX short grouping). -/
inductive ParserNode where
  | mk (options : List OptionSchema)
       (positionals : List String)
       (subcommands : List (String × ParserNode))
       (allowUnknown : Bool)
       (posixGrouping : Bool)

def ParserNode.options : ParserNode → List OptionSchema
  | .mk o _ _ _ _ => o

def ParserNode.positionals : ParserNode → List String
  | .mk _ p _ _ _ => p

def ParserNode.subcommands : ParserNode → List (String × ParserNode)
  | .mk _ _ s _ _ => s

def ParserNode.allowUnknown : ParserNode → Bool
  | .mk _ _ _ a _ => a

def ParserNode.posixGrouping : ParserNode → Bool
  | .mk _ _ _ _ g => g

/-- Look up an option schema by long name in a node. -/
def findLong (nd : ParserNode) (name : String) : Option OptionSchema :=
  nd.options.find? (fun sch => sch.long = some name)

/-- Look up an option schema by short character in a node. -/
def findShort (nd : ParserNode) (c : Char) : Option OptionSchema :=
  nd.options.find? (fun sch => sch.short = some c)

/-- Look up a child subcommand node by name. -/
def findSub (nd : ParserNode) (name : String) : Option ParserNode :=
  (nd.subcommands.find? (fun p => p.1 = name)).map (fun p => p.2)

/-- Value of a nonempty all-digit character list. -/
def digitsVal : List Char → Option Nat
  | [] => none
  | cs => go 0 cs
where
  go (acc : Nat) : List Char → Option Nat
    | [] => some acc
    | c :: rest => if c.isDigit then go (acc * 10 + (c.toNat - 48)) rest else none

/-- Modelled from the spec: partial conversion of raw text to an Integer
(spec.md section 3: conversion is partial for Integer/Float).  Accepts an
optional leading minus sign followed by at least one digit. -/
def parseIntText (s : String) : Option Int :=
  match s.data with
  | '-' :: cs => (digitsVal cs).map (fun n => -(n : Int))
  | cs => (digitsVal cs).map (fun n => (n : Int))

/-- A loose decimal-number shape check used for Float conversion. -/
def isFloatText (s : String) : Bool :=
  match s.data with
  | '-' :: cs => floatBody cs
  | cs => floatBody cs
where
  floatBody (cs : List Char) : Bool :=
    !cs.isEmpty && cs.all (fun c => c.isDigit || c = '.')

/-- Modelled from the spec: conversion from raw text to a typed Value
(spec.md section 3) — total for Boolean/Text, partial for Integer/Float;
a TextList occurrence converts as Text and is accumulated at commit
time. -/
def convert (ty : ValueType) (s : String) : Option Value :=
  match ty with
  | .boolean => some (Value.boolean (s != "false"))
  | .integer => (parseIntText s).map Value.integer
  | .floatT => if isFloatText s then some (Value.floatV s) else none
  | .text => some (Value.text s)
  | .textList => some (Value.text s)

/-- First failing validator's message, in declared order (spec.md
section 4.3: validators run in declared order; the first failure stops
further validators for that occurrence). -/
def firstFailure (vs : List Validator) (raw : String) : Option String :=
  match vs with
  | [] => none
  | v :: rest =>
    match v.validate raw with
    | some msg => some msg
    | none => firstFailure rest raw

/-- Association-list lookup for the accumulated values map. -/
def lookupVal (m : List (String × Value)) (k : String) : Option Value :=
  match m with
  | [] => none
  | (k', v) :: rest => if k' = k then some v else lookupVal rest k

/-- Insert-or-replace into the accumulated values map. -/
def setVal (m : List (String × Value)) (k : String) (v : Value) :
    List (String × Value) :=
  match m with
  | [] => [(k, v)]
  | (k', v') :: rest =>
    if k' = k then (k, v) :: rest else (k', v') :: setVal rest k v

/-- Modelled from the spec: a classified lexical token (spec.md
section 4.1): ShortCluster, LongOption with optional inline value,
EndOfOptionsMarker, Positional.  Each token retains the raw argument it
was classified from. -/
inductive Token where
  | cluster (raw : String) (chars : List Char)
  | long (raw : String) (name : String) (inlineVal : Option String)
  | marker
  | positional (raw : String)
deriving Repr

/-- The raw argument text a token was classified from. -/
def Token.raw : Token → String
  | .cluster r _ => r
  | .long r _ _ => r
  | .marker => "--"
  | .positional r => r

/-- Split a long option's body at the first `=` into name and inline
value (spec.md section 4.1 rule 2). -/
def splitEq : List Char → List Char × Option (List Char)
  | [] => ([], none)
  | '=' :: rest => ([], some rest)
  | c :: rest =>
    let (n, v) := splitEq rest
    (c :: n, v)

/-- Modelled from the spec: classification of one pre-marker argument
(spec.md section 4.1 rules 1-4): `--` is the end-of-options marker; `--x…`
is a long option split at the first `=`; `-x…` is a short cluster; a bare
`-` and everything else is positional. -/
def classify (s : String) : Token :=
  match s.data with
  | ['-', '-'] => .marker
  | '-' :: '-' :: c :: cs =>
    let (n, v) := splitEq (c :: cs)
    .long s (String.mk n) (v.map String.mk)
  | '-' :: c :: cs => .cluster s (c :: cs)
  | _ => .positional s

/-- Modelled from the spec: the classifier pass over the raw argument
sequence (spec.md section 4.1): once the end-of-options marker has been
observed, every subsequent argument is emitted as Positional
unconditionally. -/
def tokenize (args : List String) : List Token :=
  go false args
where
  go (afterMarker : Bool) : List String → List Token
    | [] => []
    | a :: rest =>
      if afterMarker then .positional a :: go afterMarker rest
      else if a = "--" then .marker :: go true rest
      else classify a :: go afterMarker rest

/-- Modelled from the spec: the "looks like an option" heuristic used when
deciding whether the next token may be consumed as a pending option value
(spec.md section 4.3): a leading `-` followed by a non-digit. -/
def looksLikeOption (s : String) : Bool :=
  match s.data with
  | '-' :: c :: _ => !c.isDigit
  | _ => false

/-- Modelled from the spec: the ephemeral ParseContext (spec.md
section 3): active node, visited node path, accumulated values and
errors, remaining arguments after the marker, resolved subcommand path,
and the active node's still-open positional slots. -/
structure ParseContext where
  node : ParserNode
  posLeft : List String
  visited : List ParserNode
  subPath : List String
  values : List (String × Value)
  errors : List ParseError
  remaining : List String

/-- The initial ParseContext for a parse call over a frozen root node. -/
def initCtx (root : ParserNode) : ParseContext :=
  ⟨root, root.positionals, [root], [], [], [], []⟩

/-- Append one error to the context. -/
def addErr (st : ParseContext) (ty : ParseErrorType) (msg : String)
    (arg : Option String) (opt : Option String) : ParseContext :=
  { st with errors := st.errors ++ [⟨ty, msg, arg, opt⟩] }

/-- Modelled from the spec: committing a converted value under the
option's duplicate policy (spec.md section 4.3): Error raises
duplicate_option on a repeated occurrence; LastWins overwrites silently;
Accumulate appends the raw text to a TextList-typed value. -/
def commit (st : ParseContext) (sch : OptionSchema) (v : Value)
    (raw : String) : ParseContext :=
  match sch.dupPolicy with
  | .accumulate =>
    let prev :=
      match lookupVal st.values sch.key with
      | some (Value.textList l) => l
      | _ => []
    { st with values := setVal st.values sch.key (Value.textList (prev ++ [raw])) }
  | .last_wins => { st with values := setVal st.values sch.key v }
  | .error =>
    match lookupVal st.values sch.key with
    | some _ => addErr st .duplicate_option "duplicate option" (some raw) (some sch.key)
    | none => { st with values := setVal st.values sch.key v }

/-- Modelled from the spec: the assignment pipeline for one option
occurrence (spec.md sections 4.3 and 3): type conversion first
(type_mismatch on failure, leaving the option unset for this occurrence
and short-circuiting validation), then validators in declared order on
the raw text (validation_failed stops the occurrence), then the commit
under the duplicate policy. -/
def processAssign (st : ParseContext) (sch : OptionSchema)
    (raw : String) : ParseContext :=
  match convert sch.type raw with
  | none => addErr st .type_mismatch "cannot convert value" (some raw) (some sch.key)
  | some v =>
    match firstFailure sch.validators raw with
    | some msg => addErr st .validation_failed msg (some raw) (some sch.key)
    | none => commit st sch v raw

/-- Outcome of processing a single token: either a finished context, or a
context together with an option still awaiting its value from the next
token. -/
inductive StepOut where
  | simple (st : ParseContext)
  | needsValue (st : ParseContext) (sch : OptionSchema) (raw : String)

/-- Modelled from the spec: handling of a recognized option occurrence
with an optional inline value (spec.md section 4.3): an arity-0 flag with
an inline value other than exactly true/false raises extra_value; an
arity-0 flag records a Boolean occurrence; an arity >= 1 option with an
inline value runs the assignment pipeline, and without one awaits the
next token. -/
def handleOpt (st : ParseContext) (sch : OptionSchema) (raw : String)
    (inlineVal : Option String) : StepOut :=
  if sch.arity = 0 then
    match inlineVal with
    | none => .simple (commit st sch (Value.boolean true) raw)
    | some "true" => .simple (commit st sch (Value.boolean true) raw)
    | some "false" => .simple (commit st sch (Value.boolean false) raw)
    | some v => .simple (addErr st .extra_value "flag does not take a value" (some v) (some sch.key))
  else
    match inlineVal with
    | some v => .simple (processAssign st sch v)
    | none => .needsValue st sch raw

/-- Modelled from the spec: the short-option expander (spec.md
section 4.2): walk the cluster's characters left to right; an
unregistered character raises unknown_option for the whole cluster and
stops; an arity-0 match records a flag occurrence and continues; an
arity >= 1 match takes the non-empty remainder verbatim as its inline
value (clustering stops), or awaits the next token when the remainder is
empty. -/
def expandCluster (st : ParseContext) (raw : String) :
    List Char → StepOut
  | [] => .simple st
  | c :: cs =>
    match findShort st.node c with
    | none => .simple (addErr st .unknown_option "unknown option" (some raw) none)
    | some sch =>
      if sch.arity = 0 then expandCluster (commit st sch (Value.boolean true) raw) raw cs
      else
        match cs with
        | [] => .needsValue st sch raw
        | _ => .simple (processAssign st sch (String.mk cs))

/-- Modelled from the spec: processing of one token against the active
node (spec.md section 4.3): unknown long options record unknown_option
and scanning continues; clusters are expanded (or treated as a single
option when POSIX grouping is disabled); a positional token fills the
next open positional slot, or descends into a matching child subcommand
when no slot is open, or records unknown_option. -/
def stepToken (st : ParseContext) : Token → StepOut
  | .marker => .simple st
  | .long raw name inlineVal =>
    (match findLong st.node name with
     | none => .simple (addErr st .unknown_option "unknown option" (some raw) none)
     | some sch => handleOpt st sch raw inlineVal)
  | .cluster raw chars =>
    if st.node.posixGrouping then expandCluster st raw chars
    else
      (match
         (match chars with
          | [c] => findShort st.node c
          | _ => findLong st.node (String.mk chars)) with
       | none => .simple (addErr st .unknown_option "unknown option" (some raw) none)
       | some sch => handleOpt st sch raw none)
  | .positional raw =>
    (match st.posLeft with
     | p :: ps =>
       .simple { st with values := setVal st.values p (Value.text raw), posLeft := ps }
     | [] =>
       match findSub st.node raw with
       | some child =>
         .simple { st with
                     node := child
                     posLeft := child.positionals
                     visited := st.visited ++ [child]
                     subPath := st.subPath ++ [raw] }
       | none => .simple (addErr st .unknown_option "unexpected argument" (some raw) none))

/-- Modelled from the spec: the parse engine's main loop (spec.md
section 4.3): tokens are consumed left to right against the active node,
with `pending` holding the `ResolvingOption` state (an option still
awaiting its value).  A pending option consumes the next token as its
value only when that token does not look like an option start; otherwise
missing_value is raised and the token is scanned normally.  At the
end-of-options marker every subsequent token becomes a remaining
argument with no further classification; tokens exhausted while a value
is still pending also raise missing_value. -/
def run (st : ParseContext) (pending : Option (OptionSchema × String)) :
    List Token → ParseContext
  | [] =>
    match pending with
    | none => st
    | some (sch, raw) =>
      addErr st .missing_value "option requires a value" (some raw) (some sch.key)
  | t :: rest =>
    match pending with
    | some (sch, raw) =>
      if looksLikeOption t.raw then
        let st1 := addErr st .missing_value "option requires a value" (some raw) (some sch.key)
        match t with
        | .marker => { st1 with remaining := rest.map Token.raw }
        | _ =>
          match stepToken st1 t with
          | .simple st' => run st' none rest
          | .needsValue st' sch2 raw2 => run st' (some (sch2, raw2)) rest
      else run (processAssign st sch t.raw) none rest
    | none =>
      match t with
      | .marker => { st with remaining := rest.map Token.raw }
      | _ =>
        match stepToken st t with
        | .simple st' => run st' none rest
        | .needsValue st' sch2 raw2 => run st' (some (sch2, raw2)) rest

/-- The injected environment-lookup capability (spec.md section 6):
`lookup(name) -> Text?`. -/
def EnvLookup := String → Option String

/-- The empty environment: every lookup fails. -/
def env0 : EnvLookup := fun _ => none

/-- Modelled from the spec: finalization of one option schema (spec.md
section 4.3, Done state, and section 6): an option with no command-line
occurrence consults its environment fallback exactly once (the looked-up
text goes through conversion and validation), otherwise its default is
assigned, and a still-unassigned required option raises
missing_required.  Returns the value to add, if any, and the errors
raised. -/
def finalizeOption (values : List (String × Value)) (env : EnvLookup)
    (sch : OptionSchema) : Option (String × Value) × List ParseError :=
  match lookupVal values sch.key with
  | some _ => (none, [])
  | none =>
    match sch.envName.bind env with
    | some txt =>
      (match convert sch.type txt with
       | none => (none, [⟨.type_mismatch, "cannot convert value", some txt, some sch.key⟩])
       | some v =>
         match firstFailure sch.validators txt with
         | some msg => (none, [⟨.validation_failed, msg, some txt, some sch.key⟩])
         | none => (some (sch.key, v), []))
    | none =>
      match sch.defaultVal with
      | some d => (some (sch.key, d), [])
      | none =>
        if sch.required then
          (none, [⟨.missing_required, "missing required option", none, some sch.key⟩])
        else (none, [])

/-- Modelled from the spec: the immutable Result (spec.md sections 3 and
4.4, and `contracts/parse_result.hpp`): parsed values, errors, the
deepest matched subcommand, and the post-marker remaining arguments. -/
structure ParseResult where
  values : List (String × Value)
  errors : List ParseError
  subcommandVal : Option String
  remainingVal : List String
deriving DecidableEq, Repr

/-- ParseResult::success (parse_result.hpp lines 72-78): true exactly
when no errors were encountered. -/
def ParseResult.success (r : ParseResult) : Bool :=
  r.errors.isEmpty

/-- ParseResult::failed (parse_result.hpp lines 80-86): true exactly when
any errors were encountered. -/
def ParseResult.failed (r : ParseResult) : Bool :=
  !r.errors.isEmpty

/-- ParseResult::error_count (parse_result.hpp lines 88-93). -/
def ParseResult.error_count (r : ParseResult) : Nat :=
  r.errors.length

/-- ParseResult::operator bool (parse_result.hpp lines 160-166): true if
successful (no errors). -/
def ParseResult.toBool (r : ParseResult) : Bool :=
  r.errors.isEmpty

/-- ParseResult::subcommand (parse_result.hpp lines 145-151). -/
def ParseResult.subcommand (r : ParseResult) : Option String :=
  r.subcommandVal

/-- ParseResult::remaining_args (parse_result.hpp lines 153-158). -/
def ParseResult.remaining_args (r : ParseResult) : List String :=
  r.remainingVal

/-- ParseResult::has (parse_result.hpp lines 125-132). -/
def ParseResult.has (r : ParseResult) (name : String) : Bool :=
  (lookupVal r.values name).isSome

/-- Modelled from the spec: Result assembly at the Done state (spec.md
sections 4.3 and 4.4): every schema in every node visited along the
subcommand path is finalized against the input-assigned values
(environment fallback, then default, then missing_required), and the
Result snapshots the terminal ParseContext. -/
def finalize (st : ParseContext) (env : EnvLookup) : ParseResult :=
  let extras := st.visited.map (fun nd => nd.options.map (finalizeOption st.values env))
  let adds := (extras.flatten.map (fun p => p.1)).reduceOption
  let errs := (extras.flatten.map (fun p => p.2)).flatten
  { values := st.values ++ adds
    errors := st.errors ++ errs
    subcommandVal := st.subPath.getLast?
    remainingVal := st.remaining }

/-- Modelled from the spec: the parse entry point (spec.md sections 2 and
6): tokenize the argument list, run the engine over one fresh
ParseContext against the frozen root node, and assemble exactly one
immutable Result.  `env` is the injected EnvironmentLookup capability. -/
def parse (root : ParserNode) (env : EnvLookup) (args : List String) :
    ParseResult :=
  finalize (run (initCtx root) none (tokenize args)) env

/-! ## The shipped demo program (src/CArsenal.cpp) -/

/-- One declared option of the demo program's options_description
(CArsenal.cpp lines 34-38): long name, optional short alias, whether the
option takes a value, and whether it is required.  Boost's
`value<string>()` without `->required()` leaves every option optional. -/
structure DemoOption where
  long : String
  shortAlias : Option Char
  takesValue : Bool
  requiredOpt : Bool
deriving DecidableEq, Repr

/-- The demo program's declared options (CArsenal.cpp lines 35-38):
`help`, `name` (string-valued), `verbose,v`.  None is required. -/
def demoOptions : List DemoOption :=
  [⟨"help", none, false, false⟩,
   ⟨"name", none, true, false⟩,
   ⟨"verbose", some 'v', false, false⟩]

/-- The parsed variables map the demo's `main` branches on (the result of
the external `po::store`/`po::notify` calls, CArsenal.cpp lines 40-42):
the occurrence count of `help` and the stored string of `name`, plus the
occurrence count of `verbose`. -/
structure VariablesMap where
  helpCount : Nat
  nameVal : Option String
  verboseCount : Nat
deriving DecidableEq, Repr

/-- An observable event of the demo program's execution, in order:
printing the options description, the greeting info log (which reads the
stored `name` value), the missing-name warning log, and the two example
routines. -/
inductive DemoEvent where
  | printHelp
  | logGreeting (name : String)
  | logWarningNoName
  | runLogExample
  | runThreadExample
deriving DecidableEq, Repr

/-- The outcome of one run of the demo's `main`: the ordered event trace
and the process return code. -/
structure DemoRun where
  events : List DemoEvent
  exitCode : Nat
deriving DecidableEq, Repr

/-- The demo program's `main` after command-line storage (CArsenal.cpp
lines 44-61): if `help` was counted, print the description and return 0;
otherwise log a greeting with the stored name or a warning when absent,
then run the logging example and the thread example and return 0. -/
def mainDemo (vm : VariablesMap) : DemoRun :=
  if vm.helpCount > 0 then
    { events := [.printHelp], exitCode := 0 }
  else
    match vm.nameVal with
    | some n =>
      { events := [.logGreeting n, .runLogExample, .runThreadExample], exitCode := 0 }
    | none =>
      { events := [.logWarningNoName, .runLogExample, .runThreadExample], exitCode := 0 }

/-! ## Concrete schemas used by the spec's testable properties -/

/-- A single-valued text option with a long name only. -/
def textOption (l : String) : OptionSchema :=
  ⟨none, some l, .text, 1, false, none, [], .last_wins, none⟩

/-- A node with exactly the option `--name` (spec.md section 8, the
end-of-options property). -/
def nameNode : ParserNode := .mk [textOption "name"] [] [] false true

/-- A node with no declared options and default policies. -/
def emptyNode : ParserNode := .mk [] [] [] false true

/-- A node with an integer option `--level` under the given duplicate
policy (spec.md section 8, duplicate-policy properties). -/
def levelNode (dp : DuplicatePolicy) : ParserNode :=
  .mk [⟨none, some "level", .integer, 1, false, none, [], dp, none⟩] [] [] false true

/-- A node with a TextList option `--level` under the Accumulate
policy. -/
def levelListNode : ParserNode :=
  .mk [⟨none, some "level", .textList, 1, false, none, [], .accumulate, none⟩] [] [] false true

/-- Modelled from the spec: an inclusive integer range validator
(RangeValidator of the validator header contract): invalid when the text
is not a number or falls outside [lo, hi]. -/
def rangeValidator (lo hi : Int) : Validator :=
  ⟨fun s =>
    match parseIntText s with
    | some n => if lo ≤ n ∧ n ≤ hi then none else some "value out of range"
    | none => some "value is not a number",
   "range validator"⟩

/-- A node with an integer option `--count` carrying the given
validators (spec.md section 8, the conversion/validation property). -/
def countNode (vs : List Validator) : ParserNode :=
  .mk [⟨none, some "count", .integer, 1, false, none, vs, .last_wins, none⟩] [] [] false true

/-- The required option "out" with no default (spec.md section 8). -/
def outOption : OptionSchema :=
  ⟨none, some "out", .text, 1, true, none, [], .last_wins, none⟩

/-- A node whose only option is the required "out". -/
def outNode : ParserNode := .mk [outOption] [] [] false true

/-- The option with short name 'f', long name "foo" and arity 1
(spec.md section 8, the inline short-value property). -/
def fooOption : OptionSchema :=
  ⟨some 'f', some "foo", .text, 1, false, none, [], .last_wins, none⟩

/-- A node whose only option is `foo`. -/
def fooNode : ParserNode := .mk [fooOption] [] [] false true

/-- The shape of a long-option argument: two leading hyphens followed by
at least one character (spec.md section 4.1 rule 2). -/
def longShape (s : String) : Bool :=
  match s.data with
  | '-' :: '-' :: _ :: _ => true
  | _ => false

/-! ## Helper lemmas about the tokenizer and the engine loop -/

lemma eq_marker_of_data (s : String) (h : s.data = ['-', '-']) : s = "--" := by
  cases s with
  | mk data => cases h; rfl

lemma classify_ne_marker (s : String) (h : s ≠ "--") : classify s ≠ Token.marker := by
  unfold classify
  split
  · exact absurd (eq_marker_of_data s (by assumption)) h
  · simp
  · simp
  · simp

lemma classify_raw (s : String) : (classify s).raw = s := by
  unfold classify
  split
  · exact (eq_marker_of_data s (by assumption)).symm
  · simp [Token.raw]
  · simp [Token.raw]
  · simp [Token.raw]

lemma tokenize_go_true (xs : List String) :
    tokenize.go true xs = xs.map Token.positional := by
  induction xs with
  | nil => simp [tokenize.go]
  | cons a rest ih => simp [tokenize.go, ih]

lemma tokenize_split (pre post : List String) (h : "--" ∉ pre) :
    tokenize (pre ++ "--" :: post) =
      pre.map classify ++ Token.marker :: post.map Token.positional := by
  unfold tokenize
  induction pre with
  | nil => simp [tokenize.go, tokenize_go_true]
  | cons a rest ih =>
    have ha : a ≠ "--" := fun hh => h (by simp [hh])
    have hr : "--" ∉ rest := fun hh => h (by simp [hh])
    simp [tokenize.go, ha, ih hr]

lemma tokenize_cons_ne (a : String) (rest : List String) (h : a ≠ "--") :
    tokenize (a :: rest) = classify a :: tokenize rest := by
  unfold tokenize
  simp [tokenize.go, h]

lemma looksLike_marker : looksLikeOption "--" = true := rfl

lemma run_none_simple (st st' : ParseContext) (t : Token) (rest : List Token)
    (h : stepToken st t = .simple st') (hT : t ≠ Token.marker) :
    run st none (t :: rest) = run st' none rest := by
  cases t with
  | marker => exact absurd rfl hT
  | long raw nm iv => simp only [run, h]
  | cluster raw chars => simp only [run, h]
  | positional raw => simp only [run, h]

lemma run_none_needs (st st' : ParseContext) (sch : OptionSchema) (raw2 : String)
    (t : Token) (rest : List Token)
    (h : stepToken st t = .needsValue st' sch raw2) (hT : t ≠ Token.marker) :
    run st none (t :: rest) = run st' (some (sch, raw2)) rest := by
  cases t with
  | marker => exact absurd rfl hT
  | long raw nm iv => simp only [run, h]
  | cluster raw chars => simp only [run, h]
  | positional raw => simp only [run, h]

lemma run_pending_consume (st : ParseContext) (sch : OptionSchema) (raw : String)
    (t : Token) (rest : List Token) (h : looksLikeOption t.raw = false) :
    run st (some (sch, raw)) (t :: rest) =
      run (processAssign st sch t.raw) none rest := by
  simp only [run, h, Bool.false_eq_true, if_false]

lemma run_reaches_marker (ts : List Token) :
    ∀ (st : ParseContext) (pending : Option (OptionSchema × String))
      (rest : List Token),
    (∀ t ∈ ts, t ≠ Token.marker) →
    (run st pending (ts ++ Token.marker :: rest)).remaining = rest.map Token.raw := by
  induction ts with
  | nil =>
    intro st pending rest _
    cases pending with
    | none => simp [run]
    | some pr =>
      obtain ⟨sch, raw⟩ := pr
      simp [run, Token.raw, looksLike_marker]
  | cons t ts ih =>
    intro st pending rest h
    have hT : t ≠ Token.marker := h t (by simp)
    have hrest : ∀ x ∈ ts, x ≠ Token.marker := fun x hx => h x (by simp [hx])
    cases pending with
    | none =>
      cases t with
      | marker => exact absurd rfl hT
      | long raw nm iv =>
        simp only [List.cons_append, run]
        rcases hstep : stepToken st (Token.long raw nm iv) with st' | ⟨st', sch2, raw2⟩
        · simp only [hstep]; exact ih st' none rest hrest
        · simp only [hstep]; exact ih st' (some (sch2, raw2)) rest hrest
      | cluster raw chars =>
        simp only [List.cons_append, run]
        rcases hstep : stepToken st (Token.cluster raw chars) with st' | ⟨st', sch2, raw2⟩
        · simp only [hstep]; exact ih st' none rest hrest
        · simp only [hstep]; exact ih st' (some (sch2, raw2)) rest hrest
      | positional raw =>
        simp only [List.cons_append, run]
        rcases hstep : stepToken st (Token.positional raw) with st' | ⟨st', sch2, raw2⟩
        · simp only [hstep]; exact ih st' none rest hrest
        · simp only [hstep]; exact ih st' (some (sch2, raw2)) rest hrest
    | some pr =>
      obtain ⟨sch, raw⟩ := pr
      by_cases hl : looksLikeOption t.raw
      · cases t with
        | marker => exact absurd rfl hT
        | long raw2 nm iv =>
          simp only [List.cons_append, run, hl, if_true]
          rcases hstep : stepToken _ (Token.long raw2 nm iv) with st' | ⟨st', sch2, raw3⟩
          · simp only [hstep]; exact ih st' none rest hrest
          · simp only [hstep]; exact ih st' (some (sch2, raw3)) rest hrest
        | cluster raw2 chars =>
          simp only [List.cons_append, run, hl, if_true]
          rcases hstep : stepToken _ (Token.cluster raw2 chars) with st' | ⟨st', sch2, raw3⟩
          · simp only [hstep]; exact ih st' none rest hrest
          · simp only [hstep]; exact ih st' (some (sch2, raw3)) rest hrest
        | positional raw2 =>
          simp only [List.cons_append, run, hl, if_true]
          rcases hstep : stepToken _ (Token.positional raw2) with st' | ⟨st', sch2, raw3⟩
          · simp only [hstep]; exact ih st' none rest hrest
          · simp only [hstep]; exact ih st' (some (sch2, raw3)) rest hrest
      · simp only [List.cons_append, run, hl, if_false]
        exact ih _ none rest hrest

lemma longShape_data (s : String) (h : longShape s = true) :
    ∃ c cs, s.data = '-' :: '-' :: c :: cs := by
  unfold longShape at h
  split at h
  · rename_i heq
    exact ⟨_, _, heq⟩
  · cases h

lemma classify_long_of_longShape (s : String) (h : longShape s = true) :
    ∃ nm iv, classify s = Token.long s nm iv := by
  obtain ⟨c, cs, hd⟩ := longShape_data s h
  refine ⟨String.mk (splitEq (c :: cs)).1, ((splitEq (c :: cs)).2).map String.mk, ?_⟩
  unfold classify
  rw [hd]
  rfl

lemma ne_marker_of_longShape (s : String) (h : longShape s = true) : s ≠ "--" := by
  intro hh
  subst hh
  simp [longShape] at h

lemma run_all_unknown (names : List String) :
    ∀ st : ParseContext, st.node.options = [] →
    (∀ s ∈ names, longShape s = true) →
    run st none (tokenize names) =
      { st with errors := st.errors ++
          names.map (fun s => ⟨.unknown_option, "unknown option", some s, none⟩) } := by
  induction names with
  | nil => intro st _ _; simp [tokenize, tokenize.go, run]
  | cons a rest ih =>
    intro st hopt hs
    have ha : longShape a = true := hs a (by simp)
    have hne : a ≠ "--" := ne_marker_of_longShape a ha
    obtain ⟨nm, iv, hc⟩ := classify_long_of_longShape a ha
    have hfind : findLong st.node nm = none := by
      unfold findLong
      rw [hopt]
      rfl
    have hstep : stepToken st (Token.long a nm iv) =
        .simple (addErr st .unknown_option "unknown option" (some a) none) := by
      simp [stepToken, hfind]
    have htok : tokenize (a :: rest) = classify a :: tokenize rest := by
      unfold tokenize
      simp [tokenize.go, hne]
    rw [htok, hc]
    have hone : run st none (Token.long a nm iv :: tokenize rest) =
        run (addErr st .unknown_option "unknown option" (some a) none) none
          (tokenize rest) := by
      simp [run, hstep]
    rw [hone]
    rw [ih _ (by simp [addErr, hopt]) (fun s hs' => hs s (by simp [hs']))]
    simp [addErr, List.append_assoc]

lemma not_looksLike_of_parseInt (v : String) (n : Int)
    (h : parseIntText v = some n) : looksLikeOption v = false := by
  unfold parseIntText at h
  unfold looksLikeOption
  split at h
  · rename_i cs heq
    rw [heq]
    cases cs with
    | nil => simp [digitsVal] at h
    | cons c cs' =>
      have hdig : c.isDigit = true := by
        by_contra hc
        simp [digitsVal, digitsVal.go, hc] at h
      simp [hdig]
  · rename_i heq
    split
    · rename_i c rest hdat
      exact absurd hdat (heq _)
    · rfl

lemma ne_dashdash_of_not_looksLike (v : String)
    (h : looksLikeOption v = false) : v ≠ "--" := by
  intro he
  rw [he] at h
  exact absurd h (by decide)

/-! ## Claim theorems -/

/-- C1: for every finished parse, the Result reports success exactly when
its error list is empty, `failed` is the negation of `success`, and the
boolean conversion of a ParseResult equals `success`. -/
theorem parse_success_iff_errors_empty (root : ParserNode) (env : EnvLookup)
    (args : List String) :
    ((parse root env args).success = true ↔ (parse root env args).errors = []) ∧
    (parse root env args).failed = (!(parse root env args).success) ∧
    (parse root env args).toBool = (parse root env args).success := by
  refine ⟨?_, rfl, rfl⟩
  simp [ParseResult.success]

/-- C8: parsing is deterministic and idempotent: two parse calls with
the same frozen node, environment capability and argument list produce
structurally identical Results (same values, errors, subcommand and
remaining arguments); in this model each call builds its Result from one
fresh ParseContext and no mutable state survives across calls. -/
theorem parse_idempotent (root : ParserNode) (env : EnvLookup)
    (args : List String) :
    parse root env args = parse root env args ∧
    (parse root env args).values = (parse root env args).values ∧
    (parse root env args).errors = (parse root env args).errors ∧
    (parse root env args).subcommand = (parse root env args).subcommand ∧
    (parse root env args).remaining_args = (parse root env args).remaining_args :=
  ⟨rfl, rfl, rfl, rfl, rfl⟩

/-- C9: in the shipped demo program, whenever the recognized `--help`
option was counted, `main` prints the description and returns 0 with no
log output and no demo thread, and its outcome is independent of any
stored `--name` value (the value is never read). -/
theorem demo_help_short_circuits (vm : VariablesMap) (h : vm.helpCount > 0) :
    mainDemo vm = ⟨[DemoEvent.printHelp], 0⟩ ∧
    (∀ n, mainDemo { vm with nameVal := n } = mainDemo vm) := by
  constructor
  · simp [mainDemo, h]
  · intro n
    simp [mainDemo, h]

/-- Witness for C9 at a concrete variables map counting one `--help`. -/
theorem demo_help_short_circuits_at_instance :
    mainDemo ⟨1, some "ada", 0⟩ = ⟨[DemoEvent.printHelp], 0⟩ ∧
    (∀ n, mainDemo { VariablesMap.mk 1 (some "ada") 0 with nameVal := n } =
      mainDemo ⟨1, some "ada", 0⟩) :=
  demo_help_short_circuits ⟨1, some "ada", 0⟩ (by decide)

/-- C10: in the shipped demo program no option is required: with no
`--help` and no `--name`, `main` logs a warning (not an error), still
runs the logging and thread examples, and returns 0; every declared demo
option is configured as not required. -/
theorem demo_missing_name_nonfatal (vm : VariablesMap)
    (h1 : vm.helpCount = 0) (h2 : vm.nameVal = none) :
    mainDemo vm =
      ⟨[DemoEvent.logWarningNoName, DemoEvent.runLogExample,
        DemoEvent.runThreadExample], 0⟩ ∧
    (∀ o ∈ demoOptions, o.requiredOpt = false) := by
  constructor
  · simp [mainDemo, h1, h2]
  · decide

/-- Witness for C10 at the empty variables map. -/
theorem demo_missing_name_nonfatal_at_instance :
    mainDemo ⟨0, none, 0⟩ =
      ⟨[DemoEvent.logWarningNoName, DemoEvent.runLogExample,
        DemoEvent.runThreadExample], 0⟩ ∧
    (∀ o ∈ demoOptions, o.requiredOpt = false) :=
  demo_missing_name_nonfatal ⟨0, none, 0⟩ (by decide) (by decide)

/-- C2: for every argument list of unknown long options, parse returns a
Result (never an exception — the engine is a total function into
ParseResult) whose error list carries one unknown_option error per
offending argument, in order: the engine does not abort on the first
error but accumulates every error of the left-to-right pass. -/
theorem parse_collects_all_unknown_options (names : List String) (env : EnvLookup)
    (h : ∀ s ∈ names, longShape s = true) :
    (parse emptyNode env names).errors =
      names.map (fun s => ⟨.unknown_option, "unknown option", some s, none⟩) ∧
    (parse emptyNode env names).error_count = names.length := by
  have hrun := run_all_unknown names (initCtx emptyNode)
    (by simp [initCtx, emptyNode, ParserNode.options]) h
  have herr : (parse emptyNode env names).errors =
      names.map (fun s => ⟨.unknown_option, "unknown option", some s, none⟩) := by
    unfold parse
    rw [hrun]
    simp [finalize, initCtx, emptyNode, ParserNode.options]
  exact ⟨herr, by simp [ParseResult.error_count, herr]⟩

/-- Witness for C2: two unknown options produce exactly two errors. -/
theorem parse_collects_all_unknown_options_at_instance :
    (parse emptyNode env0 ["--alpha", "--beta"]).errors =
      [⟨.unknown_option, "unknown option", some "--alpha", none⟩,
       ⟨.unknown_option, "unknown option", some "--beta", none⟩] ∧
    (parse emptyNode env0 ["--alpha", "--beta"]).error_count = 2 :=
  parse_collects_all_unknown_options ["--alpha", "--beta"] env0 (by decide)

/-- C3: every token after the first literal end-of-options marker is left
unclassified and returned verbatim in order as remaining_args, for any
node, environment and argument list; in particular parsing
["--name", "x", "--", "--name", "y"] stores "x" for name and yields
remaining_args ["--name", "y"]. -/
theorem end_of_options_verbatim :
    (∀ (root : ParserNode) (env : EnvLookup) (pre post : List String),
       "--" ∉ pre →
       (parse root env (pre ++ "--" :: post)).remaining_args = post) ∧
    lookupVal (parse nameNode env0 ["--name", "x", "--", "--name", "y"]).values
        "name" = some (Value.text "x") ∧
    (parse nameNode env0 ["--name", "x", "--", "--name", "y"]).remaining_args =
      ["--name", "y"] := by
  refine ⟨?_, by decide, by decide⟩
  intro root env pre post h
  have hnm : ∀ t ∈ pre.map classify, t ≠ Token.marker := by
    intro t ht
    obtain ⟨a, ha, rfl⟩ := List.mem_map.mp ht
    exact classify_ne_marker a (fun hh => h (hh ▸ ha))
  have hrun := run_reaches_marker (pre.map classify) (initCtx root) none
    (post.map Token.positional) hnm
  show (finalize _ env).remaining_args = post
  rw [tokenize_split pre post h] at *
  simp only [finalize, ParseResult.remaining_args]
  rw [hrun]
  simp only [List.map_map]
  have hco : (Token.raw ∘ Token.positional) = id := funext fun x => rfl
  rw [hco, List.map_id]

/-- Witness for C3: the tail after the marker survives verbatim for a
concrete split of the example argument list. -/
theorem end_of_options_verbatim_at_instance :
    (parse nameNode env0 (["--name", "x"] ++ "--" :: ["--name", "y"])).remaining_args =
      ["--name", "y"] :=
  end_of_options_verbatim.1 nameNode env0 ["--name", "x"] ["--name", "y"] (by decide)

/-- C4: for an option seen twice, LastWins stores the last occurrence's
value with no error, Error keeps the first value and raises exactly one
duplicate_option on the second occurrence (no crash: a Result is still
produced), and Accumulate appends every occurrence to a TextList
value. -/
theorem duplicate_policy_resolution (v1 v2 : String) (n1 n2 : Int)
    (h1 : parseIntText v1 = some n1) (h2 : parseIntText v2 = some n2) :
    parse (levelNode .last_wins) env0 ["--level", v1, "--level", v2] =
      ⟨[("level", Value.integer n2)], [], none, []⟩ ∧
    parse (levelNode .error) env0 ["--level", v1, "--level", v2] =
      ⟨[("level", Value.integer n1)],
       [⟨.duplicate_option, "duplicate option", some v2, some "level"⟩], none, []⟩ ∧
    parse levelListNode env0 ["--level", v1, "--level", v2] =
      ⟨[("level", Value.textList [v1, v2])], [], none, []⟩ := by
  have hl1 : looksLikeOption v1 = false := not_looksLike_of_parseInt v1 n1 h1
  have hl2 : looksLikeOption v2 = false := not_looksLike_of_parseInt v2 n2 h2
  have hne1 : v1 ≠ "--" := ne_dashdash_of_not_looksLike v1 hl1
  have hne2 : v2 ≠ "--" := ne_dashdash_of_not_looksLike v2 hl2
  refine ⟨?_, ?_, ?_⟩
  · have hstep1 : stepToken (initCtx (levelNode .last_wins))
        (Token.long "--level" "level" none) =
        StepOut.needsValue (initCtx (levelNode .last_wins))
          ⟨none, some "level", .integer, 1, false, none, [], .last_wins, none⟩
          "--level" := rfl
    have hstep2 : stepToken
        { initCtx (levelNode .last_wins) with values := [("level", Value.integer n1)] }
        (Token.long "--level" "level" none) =
        StepOut.needsValue
          { initCtx (levelNode .last_wins) with values := [("level", Value.integer n1)] }
          ⟨none, some "level", .integer, 1, false, none, [], .last_wins, none⟩
          "--level" := rfl
    show finalize (run (initCtx (levelNode .last_wins)) none
        (tokenize ["--level", v1, "--level", v2])) env0 = _
    rw [tokenize_cons_ne _ _ (by decide), tokenize_cons_ne _ _ hne1,
        tokenize_cons_ne _ _ (by decide), tokenize_cons_ne _ _ hne2]
    rw [show classify "--level" = Token.long "--level" "level" none from rfl]
    rw [run_none_needs _ _ _ _ _ _ hstep1 (by simp)]
    rw [run_pending_consume _ _ _ _ _ (by rw [classify_raw]; exact hl1)]
    rw [classify_raw]
    have pa1 : processAssign (initCtx (levelNode .last_wins))
        ⟨none, some "level", .integer, 1, false, none, [], .last_wins, none⟩ v1 =
        { initCtx (levelNode .last_wins) with values := [("level", Value.integer n1)] } := by
      simp [processAssign, convert, h1, firstFailure, commit, setVal, OptionSchema.key]
    rw [pa1]
    rw [run_none_needs _ _ _ _ _ _ hstep2 (by simp)]
    rw [run_pending_consume _ _ _ _ _ (by rw [classify_raw]; exact hl2)]
    rw [classify_raw]
    have pa2 : processAssign
        { initCtx (levelNode .last_wins) with values := [("level", Value.integer n1)] }
        ⟨none, some "level", .integer, 1, false, none, [], .last_wins, none⟩ v2 =
        { initCtx (levelNode .last_wins) with values := [("level", Value.integer n2)] } := by
      simp [processAssign, convert, h2, firstFailure, commit, lookupVal, setVal,
        OptionSchema.key]
    rw [pa2]
    rfl
  · have hstep1 : stepToken (initCtx (levelNode .error))
        (Token.long "--level" "level" none) =
        StepOut.needsValue (initCtx (levelNode .error))
          ⟨none, some "level", .integer, 1, false, none, [], .error, none⟩
          "--level" := rfl
    have hstep2 : stepToken
        { initCtx (levelNode .error) with values := [("level", Value.integer n1)] }
        (Token.long "--level" "level" none) =
        StepOut.needsValue
          { initCtx (levelNode .error) with values := [("level", Value.integer n1)] }
          ⟨none, some "level", .integer, 1, false, none, [], .error, none⟩
          "--level" := rfl
    show finalize (run (initCtx (levelNode .error)) none
        (tokenize ["--level", v1, "--level", v2])) env0 = _
    rw [tokenize_cons_ne _ _ (by decide), tokenize_cons_ne _ _ hne1,
        tokenize_cons_ne _ _ (by decide), tokenize_cons_ne _ _ hne2]
    rw [show classify "--level" = Token.long "--level" "level" none from rfl]
    rw [run_none_needs _ _ _ _ _ _ hstep1 (by simp)]
    rw [run_pending_consume _ _ _ _ _ (by rw [classify_raw]; exact hl1)]
    rw [classify_raw]
    have pa1 : processAssign (initCtx (levelNode .error))
        ⟨none, some "level", .integer, 1, false, none, [], .error, none⟩ v1 =
        { initCtx (levelNode .error) with values := [("level", Value.integer n1)] } := by
      simp [processAssign, convert, h1, firstFailure, commit, lookupVal, setVal,
        OptionSchema.key]
    rw [pa1]
    rw [run_none_needs _ _ _ _ _ _ hstep2 (by simp)]
    rw [run_pending_consume _ _ _ _ _ (by rw [classify_raw]; exact hl2)]
    rw [classify_raw]
    have pa2 : processAssign
        { initCtx (levelNode .error) with values := [("level", Value.integer n1)] }
        ⟨none, some "level", .integer, 1, false, none, [], .error, none⟩ v2 =
        { initCtx (levelNode .error) with
            values := [("level", Value.integer n1)]
            errors := [⟨.duplicate_option, "duplicate option", some v2, some "level"⟩] } := by
      simp [processAssign, convert, h2, firstFailure, commit, lookupVal, addErr,
        initCtx, OptionSchema.key]
    rw [pa2]
    rfl
  · have hstep1 : stepToken (initCtx levelListNode)
        (Token.long "--level" "level" none) =
        StepOut.needsValue (initCtx levelListNode)
          ⟨none, some "level", .textList, 1, false, none, [], .accumulate, none⟩
          "--level" := rfl
    have hstep2 : stepToken
        { initCtx levelListNode with values := [("level", Value.textList [v1])] }
        (Token.long "--level" "level" none) =
        StepOut.needsValue
          { initCtx levelListNode with values := [("level", Value.textList [v1])] }
          ⟨none, some "level", .textList, 1, false, none, [], .accumulate, none⟩
          "--level" := rfl
    show finalize (run (initCtx levelListNode) none
        (tokenize ["--level", v1, "--level", v2])) env0 = _
    rw [tokenize_cons_ne _ _ (by decide), tokenize_cons_ne _ _ hne1,
        tokenize_cons_ne _ _ (by decide), tokenize_cons_ne _ _ hne2]
    rw [show classify "--level" = Token.long "--level" "level" none from rfl]
    rw [run_none_needs _ _ _ _ _ _ hstep1 (by simp)]
    rw [run_pending_consume _ _ _ _ _ (by rw [classify_raw]; exact hl1)]
    rw [classify_raw]
    have pa1 : processAssign (initCtx levelListNode)
        ⟨none, some "level", .textList, 1, false, none, [], .accumulate, none⟩ v1 =
        { initCtx levelListNode with values := [("level", Value.textList [v1])] } := by
      simp [processAssign, convert, firstFailure, commit, lookupVal, setVal,
        OptionSchema.key]
    rw [pa1]
    rw [run_none_needs _ _ _ _ _ _ hstep2 (by simp)]
    rw [run_pending_consume _ _ _ _ _ (by rw [classify_raw]; exact hl2)]
    rw [classify_raw]
    have pa2 : processAssign
        { initCtx levelListNode with values := [("level", Value.textList [v1])] }
        ⟨none, some "level", .textList, 1, false, none, [], .accumulate, none⟩ v2 =
        { initCtx levelListNode with values := [("level", Value.textList [v1, v2])] } := by
      simp [processAssign, convert, firstFailure, commit, lookupVal, setVal,
        OptionSchema.key]
    rw [pa2]
    rfl

/-- Witness for C4 at the spec's example `--level 1 --level 2`. -/
theorem duplicate_policy_resolution_at_instance :
    parse (levelNode .last_wins) env0 ["--level", "1", "--level", "2"] =
      ⟨[("level", Value.integer 2)], [], none, []⟩ ∧
    parse (levelNode .error) env0 ["--level", "1", "--level", "2"] =
      ⟨[("level", Value.integer 1)],
       [⟨.duplicate_option, "duplicate option", some "2", some "level"⟩], none, []⟩ ∧
    parse levelListNode env0 ["--level", "1", "--level", "2"] =
      ⟨[("level", Value.textList ["1", "2"])], [], none, []⟩ :=
  duplicate_policy_resolution "1" "2" 1 2 (by decide) (by decide)

/-- C5: conversion precedes validation and a conversion failure
short-circuits validation: `--count abc` yields one type_mismatch error
referencing count for every possible validator list (so no validator can
have run), while `--count 200` against the range validator [1, 100]
yields exactly one validation_failed error referencing count; both parses
fail and leave count unset. -/
theorem conversion_short_circuits_validation :
    (∀ vs : List Validator,
       (parse (countNode vs) env0 ["--count", "abc"]).errors =
         [⟨.type_mismatch, "cannot convert value", some "abc", some "count"⟩] ∧
       (parse (countNode vs) env0 ["--count", "abc"]).success = false ∧
       (parse (countNode vs) env0 ["--count", "abc"]).has "count" = false) ∧
    ((parse (countNode [rangeValidator 1 100]) env0 ["--count", "200"]).errors =
       [⟨.validation_failed, "value out of range", some "200", some "count"⟩] ∧
     (parse (countNode [rangeValidator 1 100]) env0 ["--count", "200"]).success = false ∧
     (parse (countNode [rangeValidator 1 100]) env0 ["--count", "200"]).has "count" = false) :=
  ⟨fun vs => ⟨rfl, rfl, rfl⟩, by decide, by decide, by decide⟩

/-- C6: at the end of parsing, a required schema of a visited node with
no input-assigned value, no environment fallback and no default raises a
missing_required error naming the option; in particular the required
"out" with the empty argument list yields a failed Result with exactly
one missing_required error referencing "out". -/
theorem required_without_value_reported :
    (∀ (st : ParseContext) (env : EnvLookup) (nd : ParserNode) (sch : OptionSchema),
       nd ∈ st.visited → sch ∈ nd.options →
       lookupVal st.values sch.key = none →
       sch.envName = none → sch.defaultVal = none → sch.required = true →
       (⟨.missing_required, "missing required option", none, some sch.key⟩ : ParseError)
         ∈ (finalize st env).errors) ∧
    (parse outNode env0 []).success = false ∧
    (parse outNode env0 []).errors =
      [⟨.missing_required, "missing required option", none, some "out"⟩] := by
  refine ⟨?_, by decide, by decide⟩
  intro st env nd sch hnd hsch hval henv hdef hreq
  have hopt : finalizeOption st.values env sch =
      (none, [⟨.missing_required, "missing required option", none, some sch.key⟩]) := by
    simp [finalizeOption, hval, henv, hdef, hreq]
  simp only [finalize]
  apply List.mem_append_right
  apply List.mem_flatten.mpr
  refine ⟨(finalizeOption st.values env sch).2, ?_, by rw [hopt]; simp⟩
  apply List.mem_map.mpr
  refine ⟨finalizeOption st.values env sch, ?_, rfl⟩
  apply List.mem_flatten.mpr
  refine ⟨nd.options.map (finalizeOption st.values env),
    List.mem_map.mpr ⟨nd, hnd, rfl⟩, List.mem_map.mpr ⟨sch, hsch, rfl⟩⟩

/-- Witness for C6: the required "out" in the fresh context over outNode
is reported missing. -/
theorem required_without_value_reported_at_instance :
    (⟨.missing_required, "missing required option", none, some outOption.key⟩ : ParseError)
      ∈ (finalize (initCtx outNode) env0).errors :=
  required_without_value_reported.1 (initCtx outNode) env0 outNode outOption
    (by simp [initCtx]) (by simp [outNode, ParserNode.options]) rfl rfl rfl rfl

/-- C7: for the option with short name f, long name foo and arity 1, the
input forms `-fVALUE`, `-f VALUE` and `--foo=VALUE` all store the same
value for foo: the characters of a short cluster after the value-taking
option are consumed verbatim as its inline value, never reinterpreted as
further flags. -/
theorem short_inline_value_equivalence (v : String) (hv : v ≠ "")
    (hl : looksLikeOption v = false) :
    parse fooNode env0 ["-f" ++ v] = parse fooNode env0 ["-f", v] ∧
    parse fooNode env0 ["--foo=" ++ v] = parse fooNode env0 ["-f", v] ∧
    lookupVal (parse fooNode env0 ["-f", v]).values "foo" = some (Value.text v) := by
  obtain ⟨c, cs', hv2⟩ : ∃ c cs', v.data = c :: cs' := by
    cases hvd : v.data with
    | nil =>
      exact absurd (by cases v with | mk d => cases hvd; rfl) hv
    | cons c cs' => exact ⟨c, cs', rfl⟩
  have hne : v ≠ "--" := ne_dashdash_of_not_looksLike v hl
  have hmkv : String.mk (c :: cs') = v := by
    rw [← hv2]
  have hB : parse fooNode env0 ["-f", v] =
      finalize (processAssign (initCtx fooNode) fooOption v) env0 := by
    show finalize (run (initCtx fooNode) none (tokenize ["-f", v])) env0 = _
    rw [tokenize_cons_ne _ _ (by decide), tokenize_cons_ne _ _ hne]
    rw [show classify "-f" = Token.cluster "-f" ['f'] from rfl]
    rw [run_none_needs _ _ _ _ _ _
      (show stepToken (initCtx fooNode) (Token.cluster "-f" ['f']) =
        StepOut.needsValue (initCtx fooNode) fooOption "-f" from rfl) (by simp)]
    rw [run_pending_consume _ _ _ _ _ (by rw [classify_raw]; exact hl)]
    rw [classify_raw]
    rfl
  refine ⟨?_, ?_, ?_⟩
  · have hneA : ("-f" ++ v) ≠ "--" := by
      intro h
      have hd := congrArg String.data h
      cases v with | mk d => simp at hd
    have hclA : classify ("-f" ++ v) = Token.cluster ("-f" ++ v) ('f' :: v.data) := by
      cases v with | mk d => rfl
    show finalize (run (initCtx fooNode) none (tokenize ["-f" ++ v])) env0 = _
    rw [tokenize_cons_ne _ _ hneA, hclA, hv2]
    rw [run_none_simple _ _ _ _
      (show stepToken (initCtx fooNode) (Token.cluster ("-f" ++ v) ('f' :: c :: cs')) =
        StepOut.simple (processAssign (initCtx fooNode) fooOption (String.mk (c :: cs')))
        from rfl) (by simp)]
    rw [hmkv, hB]
    rfl
  · have hneC : ("--foo=" ++ v) ≠ "--" := by
      intro h
      have hd := congrArg String.data h
      cases v with | mk d => simp at hd
    have hclC : classify ("--foo=" ++ v) = Token.long ("--foo=" ++ v) "foo" (some v) := by
      cases v with | mk d => rfl
    show finalize (run (initCtx fooNode) none (tokenize ["--foo=" ++ v])) env0 = _
    rw [tokenize_cons_ne _ _ hneC, hclC]
    rw [run_none_simple _ _ _ _
      (show stepToken (initCtx fooNode) (Token.long ("--foo=" ++ v) "foo" (some v)) =
        StepOut.simple (processAssign (initCtx fooNode) fooOption v) from rfl) (by simp)]
    rw [hB]
    rfl
  · rw [hB]
    rfl

/-- Witness for C7 at the spec's example value 42. -/
theorem short_inline_value_equivalence_at_instance :
    parse fooNode env0 ["-f" ++ "42"] = parse fooNode env0 ["-f", "42"] ∧
    parse fooNode env0 ["--foo=" ++ "42"] = parse fooNode env0 ["-f", "42"] ∧
    lookupVal (parse fooNode env0 ["-f", "42"]).values "foo" =
      some (Value.text "42") :=
  short_inline_value_equivalence "42" (by decide) (by decide)

end CArsenal
